import Mathlib

/-
  Verification of the on-disk filesystem layer of the CS3423-MP4 repository
  (src/code/filesys/filesys.cc, filehdr.cc, directory.cc and the syscall
  surface in src/code/userprog/ksyscall.h).

  The embedding is shallow: the C++ routines are translated into executable
  Lean functions over an explicit filesystem state.  External collaborators
  that are not part of the repository sources (the raw block device, the
  persistent bitmap store, the backing-file abstraction) are modelled from
  the specification's interface descriptions; every such definition carries
  a doc comment saying so.  Machine integers are modelled as Nat/Int (all
  quantities stay far from any overflow boundary in the scenarios treated
  here); C functions that can fail an assertion or perform an out-of-range
  device access return Option, with none denoting the aborted run.
-/

set_option maxRecDepth 8000

namespace NachosFS

/-- Modelled from the spec: the block device has a fixed sector size (disk.h
is not under src/); the reference system uses 128 bytes per sector. -/
def SectorSize : Nat := 128

/-- Maximum file-name length: spec section 4.4, final component length is at
most 9 bytes (FileNameMaxLen in the missing directory.h). -/
def FileNameMaxLen : Nat := 9

/-- directory.cc / filesys.cc: NumDirEntries = 64 (MP4 MODIFIED). -/
def NumDirEntries : Nat := 64

/-- Modelled from the spec: directory.h is not under src/.  A DirectoryEntry
is a fixed-width record (in-use flag, 10-byte name buffer, header sector
number, type tag); 24 bytes with alignment in the reference layout. -/
def DirectoryEntrySize : Nat := 24

/-- filesys.cc line 66: DirectoryFileSize = sizeof(DirectoryEntry) * NumDirEntries. -/
def DirectoryFileSize : Nat := DirectoryEntrySize * NumDirEntries

/-- utility.h macro divRoundUp(n, v) = (n + v - 1) / v, for nonnegative n. -/
def divRoundUp (n v : Nat) : Nat := (n + v - 1) / v

/-! ## Bitmap store (spec section 4.1) -/

/-- Number of clear (false) bits in a bit list. -/
def countClear : List Bool → Nat
  | [] => 0
  | true :: t => countClear t
  | false :: t => countClear t + 1

/-- Modelled from the spec: the free-sector bitmap (bitmap.cc / pbitmap.cc
are not under src/).  One bit per disk sector; true means allocated. -/
structure Bitmap where
  bits : List Bool
  deriving DecidableEq

/-- Spec 4.1: NumClear() counts the clear bits. -/
def Bitmap.numClear (bm : Bitmap) : Nat := countClear bm.bits

/-- Lowest clear bit of a bit list: its index and the list with it set,
or none when every bit is set. -/
def fasAux : List Bool → Option (Nat × List Bool)
  | [] => none
  | true :: t =>
    match fasAux t with
    | none => none
    | some (i, l) => some (i + 1, true :: l)
  | false :: t => some (0, true :: t)

/-- Spec 4.1: FindAndSet() scans for the lowest-indexed clear bit, sets it
and returns its index; returns -1 (the "no space" signal) leaving the map
unchanged when no clear bit exists. -/
def Bitmap.findAndSetI (bm : Bitmap) : Int × Bitmap :=
  match fasAux bm.bits with
  | none => (-1, bm)
  | some (i, l) => ((i : Int), ⟨l⟩)

/-- Spec 4.1: Test(sectorIndex).  An out-of-range index fails the bitmap's
range assertion, modelled as none. -/
def Bitmap.test (bm : Bitmap) (i : Int) : Option Bool :=
  if 0 ≤ i ∧ i < (bm.bits.length : Int) then some (bm.bits.getD i.toNat false)
  else none

/-- Spec 4.1: Clear(sectorIndex).  The caller must ensure the bit was
previously set (checked by assertion), and the index must be in range;
violations are modelled as none. -/
def Bitmap.clear (bm : Bitmap) (i : Int) : Option Bitmap :=
  match bm.test i with
  | some true => some ⟨bm.bits.set i.toNat false⟩
  | _ => none

/-! ## File header (filehdr.cc) -/

/-- filehdr.cc: the in-memory file header record: total byte length, total
data-sector count, and the first-level table of index-block sector numbers
(filled left to right by Allocate; slots never written keep the
constructor's memset(-1) sentinel, reflected by `FileHeader.l1At`). -/
structure FileHeader where
  numBytes : Nat
  numSectors : Nat
  dataSectors : List Int
  deriving DecidableEq

/-- dataSectors[i], with the constructor's memset(-1) value for slots the
allocation never wrote. -/
def FileHeader.l1At (h : FileHeader) (i : Nat) : Int := h.dataSectors.getD i (-1)

/-- One disk sector's contents at the granularity the filesystem claims
need: raw bytes (data or uninitialized), a 32-slot index block, or a
serialized file header. -/
inductive SectorData where
  | raw : SectorData
  | index : List Int → SectorData
  | header : FileHeader → SectorData
  deriving DecidableEq

/-- Modelled from the spec: the external synchronous block device
(synchdisk.cc / disk.cc are not under src/): a fixed total sector count,
with reads and writes of out-of-range sector numbers failing the device's
range assertion (modelled as none). -/
structure Disk where
  numSectors : Nat
  sectors : Nat → SectorData

def Disk.readSector (d : Disk) (s : Int) : Option SectorData :=
  if 0 ≤ s ∧ s < (d.numSectors : Int) then some (d.sectors s.toNat) else none

def Disk.writeSector (d : Disk) (s : Int) (v : SectorData) : Option Disk :=
  if 0 ≤ s ∧ s < (d.numSectors : Int) then
    some ⟨d.numSectors, fun k => if k = s.toNat then v else d.sectors k⟩
  else none

/-- One disk write performed by the filesystem code, tagged by which
persistent structure the call site is writing: an index block written from
inside FileHeader::Allocate, a file header written by FileHeader::WriteBack,
a directory table written by Directory::WriteBack through the open file
whose header lives at the given sector, or the free-map file written by
PersistentBitmap::WriteBack. -/
inductive WEvent where
  | indexBlock : Int → WEvent
  | header : Int → WEvent
  | table : Int → WEvent
  | bitmap : WEvent
  deriving DecidableEq

def isIndexEv : WEvent → Bool
  | .indexBlock _ => true
  | _ => false

def isStructEv : WEvent → Bool
  | .indexBlock _ => false
  | _ => true

/-- The inner for-loop of FileHeader::Allocate (filehdr.cc 87-90): k calls
to FindAndSet filling consecutive index-block slots; num is decremented
whether or not FindAndSet succeeds, so a failed call leaves -1 in the slot. -/
def fillSlots : Nat → Bitmap → List Int × Bitmap
  | 0, bm => ([], bm)
  | k + 1, bm =>
    let p := bm.findAndSetI
    let q := fillSlots k p.2
    (p.1 :: q.1, q.2)

/-- The while-loop of FileHeader::Allocate (filehdr.cc 81-94).  Each
iteration takes one sector for an index block, fills min 32 num slots with
FindAndSet results, pads the remaining slots with -1, and writes the index
block to disk immediately.  num drops by exactly min 32 num per iteration,
so the loop runs exactly divRoundUp num 32 times; that count is passed as
the structural recursion argument (the fuel-exhaustion branch is
unreachable for the top-level call). -/
def allocLoop : Nat → Nat → Bitmap → Disk → Option (List Int × Bitmap × Disk × List WEvent)
  | _, 0, bm, dsk => some ([], bm, dsk, [])
  | 0, _ + 1, _, _ => none
  | iters + 1, n + 1, bm, dsk =>
    let p := bm.findAndSetI
    let k := min 32 (n + 1)
    let q := fillSlots k p.2
    match dsk.writeSector p.1 (SectorData.index (q.1 ++ List.replicate (32 - k) (-1))) with
    | none => none
    | some dsk1 =>
      match allocLoop iters (n + 1 - k) q.2 dsk1 with
      | none => none
      | some (rest, bm2, dsk2, evs) =>
        some (p.1 :: rest, bm2, dsk2, WEvent.indexBlock p.1 :: evs)

/-- FileHeader::Allocate (filehdr.cc 69-105): computes the sector count,
fails (returns false, nothing written) when the bitmap has fewer clear bits
than that count, and otherwise runs the index-block allocation loop. -/
def FileHeader.Allocate (bm : Bitmap) (dsk : Disk) (fileSize : Nat) :
    Option (Bool × FileHeader × Bitmap × Disk × List WEvent) :=
  let ns := divRoundUp fileSize SectorSize
  if bm.numClear < ns then some (false, ⟨fileSize, ns, []⟩, bm, dsk, [])
  else
    match allocLoop (divRoundUp ns 32) ns bm dsk with
    | none => none
    | some (l1, bm1, dsk1, evs) => some (true, ⟨fileSize, ns, l1⟩, bm1, dsk1, evs)

/-- Inner loop of FileHeader::Deallocate (filehdr.cc 120-123): clear every
non-sentinel slot of one index block. -/
def clearSlots : Bitmap → List Int → Option Bitmap
  | bm, [] => some bm
  | bm, s :: rest =>
    if s = -1 then clearSlots bm rest
    else
      match bm.clear s with
      | none => none
      | some bm1 => clearSlots bm1 rest

/-- Outer loop of FileHeader::Deallocate (filehdr.cc 118-126): for each of
the first divRoundUp numSectors 32 first-level slots, read back the index
block, clear its non-sentinel data sectors, assert the index-block sector
itself is marked, and clear it.  Reading a sector that does not hold an
index block would reinterpret unrelated bytes in C; it is modelled as a
failed run. -/
def deallocLoop (dsk : Disk) : Bitmap → List Int → Option Bitmap
  | bm, [] => some bm
  | bm, l1s :: rest =>
    match dsk.readSector l1s with
    | some (SectorData.index slots) =>
      match clearSlots bm slots with
      | none => none
      | some bm1 =>
        match bm1.test l1s with
        | some true =>
          match bm1.clear l1s with
          | none => none
          | some bm2 => deallocLoop dsk bm2 rest
        | _ => none
    | _ => none

/-- FileHeader::Deallocate (filehdr.cc 114-133). -/
def FileHeader.Deallocate (h : FileHeader) (bm : Bitmap) (dsk : Disk) : Option Bitmap :=
  deallocLoop dsk bm ((List.range (divRoundUp h.numSectors 32)).map h.l1At)

/-- FileHeader::ByteToSector (filehdr.cc 187-197): translate a byte offset
to the physical data sector through one index-block read.  The second
component records the list of sectors read from the device during the call. -/
def FileHeader.ByteToSector (h : FileHeader) (dsk : Disk) (offset : Nat) :
    Option (Int × List Int) :=
  let target := offset / SectorSize
  match dsk.readSector (h.l1At (target / 32)) with
  | some (SectorData.index slots) =>
    some (slots.getD (target % 32) (-1), [h.l1At (target / 32)])
  | _ => none

/-! ## Directory table (directory.cc) -/

/-- Modelled from the spec: directory.h is not under src/; the entry's type
tag distinguishes a plain file from a sub-directory (FILE / DIR). -/
inductive FType where
  | file : FType
  | dir : FType
  deriving DecidableEq

/-- A file or directory name, as the sequence of characters of the C string
(names are stored in a 10-byte buffer; comparisons and copies use
FileNameMaxLen, see nameEq and Directory.add). -/
abbrev FName := List Char

/-- strncmp(a, b, FileNameMaxLen) == 0 on C strings: the first
FileNameMaxLen characters agree. -/
def nameEq (a b : FName) : Bool := a.take FileNameMaxLen == b.take FileNameMaxLen

/-- One slot of the directory table (directory.h, modelled from the spec:
in-use flag, name, header sector, type tag). -/
structure DirEntry where
  inUse : Bool
  name : FName
  sector : Int
  ftype : FType
  deriving DecidableEq

instance : Inhabited DirEntry := ⟨⟨false, [], 0, FType.file⟩⟩

/-- A directory table: the fixed-size entry array, as a list. -/
abbrev DirTable := List DirEntry

/-- The entry new Directory(NumDirEntries) produces for every slot
(memset 0, inUse = FALSE). -/
def blankEntry : DirEntry := ⟨false, [], 0, FType.file⟩

/-- A freshly constructed, completely empty directory table. -/
def emptyTable : DirTable := List.replicate NumDirEntries blankEntry

/-- First index satisfying the predicate (the linear scans of
directory.cc), with none when no entry matches. -/
def findIdxA (p : α → Bool) : List α → Option Nat
  | [] => none
  | a :: l =>
    if p a then some 0
    else
      match findIdxA p l with
      | none => none
      | some i => some (i + 1)

/-- Directory::FindIndex (directory.cc 97-109): first in-use entry whose
name matches by strncmp up to FileNameMaxLen. -/
def Directory.findIndex (tbl : DirTable) (name : FName) : Option Nat :=
  findIdxA (fun e => e.inUse && nameEq e.name name) tbl

/-- Directory::Find with recursively = false: the matching entry's header
sector, or -1. -/
def Directory.findNR (tbl : DirTable) (name : FName) : Int :=
  match Directory.findIndex tbl name with
  | some i => (tbl.getD i default).sector
  | none => -1

/-- The backing-file view of all directory tables.  Modelled from the spec:
the external OpenFile abstraction (openfile.cc is not under src/) bulk
(de)serializes a directory table against the file identified by its
header's sector, so the store maps a header sector number to the table
content currently on disk for that file. -/
abbrev DirStore := Int → DirTable

/-- Point update of the directory store (one Directory::WriteBack). -/
def updStore (store : DirStore) (k : Int) (v : DirTable) : DirStore :=
  fun s => if s = k then v else store s

/-- Directory::Find (directory.cc 120-147).  When the name is not present
locally and `recursively` is set, every in-use sub-directory entry is
fetched from the store and searched depth-first, returning the first
non-(-1) result in entry order.  The nesting depth is bounded by fuel;
exhausted fuel reports -1 (not found), which never occurs at the depths
used by the claims. -/
def Directory.find (store : DirStore) : Nat → DirTable → FName → Bool → Int
  | fuel, tbl, name, recursively =>
    match Directory.findIndex tbl name with
    | some i => (tbl.getD i default).sector
    | none =>
      if recursively then
        match fuel with
        | 0 => -1
        | fuel' + 1 =>
          tbl.foldl
            (fun acc e =>
              if acc != -1 then acc
              else if e.inUse && e.ftype == FType.dir then
                Directory.find store fuel' (store e.sector) name true
              else acc)
            (-1)
      else -1

/-- Directory::Add (directory.cc 161-176): FALSE without mutation when the
name is already present; otherwise claim the first free slot, storing the
name by strncpy up to FileNameMaxLen characters; FALSE without mutation
when no slot is free. -/
def Directory.add (tbl : DirTable) (name : FName) (newSector : Int) (t : FType) :
    Bool × DirTable :=
  if (Directory.findIndex tbl name).isSome then (false, tbl)
  else
    match findIdxA (fun e => !e.inUse) tbl with
    | some i => (true, tbl.set i ⟨true, name.take FileNameMaxLen, newSector, t⟩)
    | none => (false, tbl)

/-- Directory::Remove (directory.cc 186-195): clear the in-use flag of the
matching slot; FALSE without mutation when the name is not present. -/
def Directory.removeName (tbl : DirTable) (name : FName) : Bool × DirTable :=
  match Directory.findIndex tbl name with
  | none => (false, tbl)
  | some i => (true, tbl.set i { tbl.getD i default with inUse := false })

/-- Directory::RemoveAll (directory.cc 197-218): walk the table in order;
for each in-use entry, first drain sub-directories recursively (each
recursive call writes its own drained table back), then fetch the entry's
file header from disk, mark the slot unused, deallocate the header's
sectors and clear the header sector itself from the bitmap; finally write
this table back through its own open file.  Returns the updated store, the
updated bitmap, and the write events, or none when a device access or a
bitmap assertion fails (or the fuel bound, which exceeds any depth used
here, is exhausted). -/
def Directory.removeAll (dsk : Disk) :
    Nat → DirStore → Bitmap → DirTable → Int → Option (DirStore × Bitmap × List WEvent)
  | 0, _, _, _, _ => none
  | fuel + 1, store, bm, tbl, opSector =>
    match
      tbl.foldl
        (fun acc e =>
          match acc with
          | none => none
          | some (store0, bm0, done, evs0) =>
            if e.inUse then
              match
                (if e.ftype == FType.dir then
                  Directory.removeAll dsk fuel store0 bm0 (store0 e.sector) e.sector
                else some (store0, bm0, []))
              with
              | none => none
              | some (store1, bm1, evs1) =>
                match dsk.readSector e.sector with
                | some (SectorData.header h) =>
                  match FileHeader.Deallocate h bm1 dsk with
                  | none => none
                  | some bm2 =>
                    match bm2.clear e.sector with
                    | none => none
                    | some bm3 =>
                      some (store1, bm3, done ++ [{ e with inUse := false }], evs0 ++ evs1)
                | _ => none
            else some (store0, bm0, done ++ [e], evs0))
        (some (store, bm, [], []))
    with
    | none => none
    | some (store2, bm2, tbl2, evs2) =>
      some (updStore store2 opSector tbl2, bm2, evs2 ++ [WEvent.table opSector])

/-! ## Namespace coordinator (filesys.cc) -/

/-- The persistent filesystem state: the block device, the directory-table
contents of every directory file (keyed by header sector; sector 1 is the
root), and the persisted free-map file content. -/
structure FsState where
  disk : Disk
  dirStore : DirStore
  bitmapDisk : List Bool

/-- DirectorySector (filesys.cc line 59). -/
def DirectorySector : Int := 1

/-- A path, as its non-empty list of slash-separated segments (the C code
receives absolute paths such as /a/b/c; strtok splits them into segments). -/
abbrev FsPath := List FName

/-- FileSystem::GetFileName (filesys.cc 464-473): the substring after the
last slash, i.e. the last segment. -/
def finalName (path : FsPath) : FName := path.getLastD []

/-- FileSystem::GetDirectoryName (filesys.cc 480-496): the token right
before the final one, or NULL for a top-level name. -/
def parentSeg (path : FsPath) : Option FName := path.dropLast.getLast?

/-- Total length of the textual path: one slash per segment plus the
segment characters (an absolute path /a/b/c). -/
def pathLen (path : FsPath) : Nat := path.length + (path.map List.length).sum

/-- FileSystem::CheckFileLength (filesys.cc 503-518): the final name is at
most 9 characters and the whole path at most 255. -/
def checkFileLength (path : FsPath) : Bool :=
  decide ((finalName path).length ≤ 9) && decide (pathLen path ≤ 255)

/-- Parent-directory resolution shared by Create and CreateDirectory
(filesys.cc 203-217 and 547/564-570): the root table for a top-level name,
otherwise the sector found by a recursive Find of the parent segment from
the root; none when that Find reports -1. -/
def FileSystem.resolveParent (fuel : Nat) (st : FsState) (path : FsPath) : Option Int :=
  match parentSeg path with
  | none => some DirectorySector
  | some d =>
    let s := Directory.find st.dirStore fuel (st.dirStore DirectorySector) d true
    if s == -1 then none else some s

/-- FileSystem::Create (filesys.cc 185-259).  Rejects over-long names and
paths; resolves the parent (FALSE when the parent segment does not
resolve); FALSE when the final name is already present in the parent
table; otherwise takes a header sector from the bitmap, adds the entry to
the in-memory parent table, allocates the data sectors (the index blocks
are written to disk during Allocate), and only on full success writes the
header, the parent table and the bitmap back, in that order.  All failing
paths discard the in-memory bitmap and table, so the persistent state is
returned untouched with no write events. -/
def FileSystem.create (fuel : Nat) (st : FsState) (path : FsPath) (initialSize : Nat) :
    Option (Bool × FsState × List WEvent) :=
  if !checkFileLength path then some (false, st, [])
  else
    match FileSystem.resolveParent fuel st path with
    | none => some (false, st, [])
    | some psec =>
      let parentTbl := st.dirStore psec
      let fileName := finalName path
      if Directory.findNR parentTbl fileName != -1 then some (false, st, [])
      else
        let p := Bitmap.findAndSetI ⟨st.bitmapDisk⟩
        if p.1 == -1 then some (false, st, [])
        else
          let a := Directory.add parentTbl fileName p.1 FType.file
          if !a.1 then some (false, st, [])
          else
            match FileHeader.Allocate p.2 st.disk initialSize with
            | none => none
            | some (false, _, _, _, _) => some (false, st, [])
            | some (true, hdr, bm2, dsk1, evs) =>
              match dsk1.writeSector p.1 (SectorData.header hdr) with
              | none => none
              | some dsk2 =>
                some (true, ⟨dsk2, updStore st.dirStore psec a.2, bm2.bits⟩,
                  evs ++ [WEvent.header p.1, WEvent.table psec, WEvent.bitmap])

/-- Outcome reported by FileSystem::CreateDirectory (a void function that
prints its failures). -/
inductive CdResult where
  | ok : CdResult
  | tooLong : CdResult
  | invalidPath : CdResult
  deriving DecidableEq

/-- Common tail of both branches of FileSystem::CreateDirectory
(filesys.cc 547-589): take a sector for the header, write the header
there, write the fresh empty table as the new directory's content, Add a
DIR entry to the parent table (the result is ignored) and write the parent
table back. -/
def FileSystem.cdFinish (st : FsState) (hdr : FileHeader) (bm1 : Bitmap) (dsk1 : Disk)
    (evs1 : List WEvent) (fileName : FName) (psec : Int) :
    Option (CdResult × FsState × List WEvent) :=
  let p := bm1.findAndSetI
  match dsk1.writeSector p.1 (SectorData.header hdr) with
  | none => none
  | some dsk2 =>
    let store1 := updStore st.dirStore p.1 emptyTable
    let a := Directory.add (st.dirStore psec) fileName p.1 FType.dir
    some (CdResult.ok, ⟨dsk2, updStore store1 psec a.2, p.2.bits⟩,
      evs1 ++ [WEvent.header p.1, WEvent.table p.1, WEvent.table psec, WEvent.bitmap])

/-- FileSystem::CreateDirectory (filesys.cc 525-599).  After the length
check it immediately calls hdr->Allocate(freeMap, DirectoryFileSize) --
writing the new header's index blocks to disk before the path is even
examined (its boolean result is ignored).  A top-level name goes under the
root; otherwise the parent segment is resolved recursively and an
unresolvable parent prints "Invalid path" and returns, with the bitmap and
every directory table unwritten (but the index blocks already on disk).
On the normal path the header, the new table content, the parent table and
finally the bitmap are written. -/
def FileSystem.createDirectory (fuel : Nat) (st : FsState) (path : FsPath) :
    Option (CdResult × FsState × List WEvent) :=
  if !checkFileLength path then some (CdResult.tooLong, st, [])
  else
    let fileName := finalName path
    match FileHeader.Allocate ⟨st.bitmapDisk⟩ st.disk DirectoryFileSize with
    | none => none
    | some (_, hdr, bm1, dsk1, evs1) =>
      match parentSeg path with
      | none => FileSystem.cdFinish ⟨dsk1, st.dirStore, st.bitmapDisk⟩ hdr bm1 dsk1 evs1 fileName DirectorySector
      | some d =>
        let s := Directory.find st.dirStore fuel (st.dirStore DirectorySector) d true
        if s == -1 then some (CdResult.invalidPath, ⟨dsk1, st.dirStore, st.bitmapDisk⟩, evs1)
        else FileSystem.cdFinish ⟨dsk1, st.dirStore, st.bitmapDisk⟩ hdr bm1 dsk1 evs1 fileName s

/-- FileSystem::Remove with recursiveflag = true (filesys.cc 353-382).
The target is located by a recursive Find of the final name from the root;
dirtemp is fetched from the root file; the target's content is fetched as
a directory table and drained by RemoveAll; the target's own header is
fetched from disk and deallocated and its header sector cleared; the final
name is removed from dirtemp -- the ROOT table -- and the bitmap and then
dirtemp are written back (dirtemp goes to the root file).  The dead
OpenFile taken for dirName on line 364 still constructs, so a parent
segment that does not resolve is a device assertion failure (OpenFile(-1)
fetches sector -1).  The non-recursive branch is not modelled (no claim
depends on it; as written it does not even name a declared variable). -/
def FileSystem.removeRec (fuel : Nat) (st : FsState) (path : FsPath) :
    Option (Bool × FsState × List WEvent) :=
  let root := st.dirStore DirectorySector
  let fileName := finalName path
  let sector := Directory.find st.dirStore fuel root fileName true
  if sector == -1 then some (false, st, [])
  else
    match
      (match parentSeg path with
       | none => some ()
       | some d =>
         if Directory.find st.dirStore fuel root d true == -1 then none else some ())
    with
    | none => none
    | some _ =>
      match Directory.removeAll st.disk fuel st.dirStore ⟨st.bitmapDisk⟩ (st.dirStore sector) sector with
      | none => none
      | some (store1, bm1, evs1) =>
        match st.disk.readSector sector with
        | some (SectorData.header h) =>
          match FileHeader.Deallocate h bm1 st.disk with
          | none => none
          | some bm2 =>
            match bm2.clear sector with
            | none => none
            | some bm3 =>
              let r := Directory.removeName root fileName
              some (true, ⟨st.disk, updStore store1 DirectorySector r.2, bm3.bits⟩,
                evs1 ++ [WEvent.bitmap, WEvent.table DirectorySector])
        | _ => none

/-! ## File-descriptor surface (filesys.cc 601-629) -/

/-- One slot of FileSystem::fileDescriptorTable: none is a NULL pointer,
some f an open file (abstracted to a token naming it). -/
abbrev FdTable := List (Option Nat)

/-- FileSystem::Close (filesys.cc 623-629).  The guard indexes the table
before checking the bounds, so an id outside 1..20 is an out-of-bounds
read (undefined behavior, modelled as none).  For a NULL slot it returns
0.  Otherwise it evaluates `fileDescriptorTable[id-1]==NULL;` -- a
comparison whose value is discarded, not an assignment -- and returns 1
with the table unchanged. -/
def FileSystem.closeFd (tbl : FdTable) (id : Int) : Option (Int × FdTable) :=
  if id - 1 < 0 ∨ 20 ≤ id - 1 then none
  else if (tbl.getD (id - 1).toNat none).isNone then some (0, tbl)
  else some (1, tbl)

/-- Result of FileSystem::Write / FileSystem::Read for a given id:
the early -1 return, or delegation to the open file in the slot. -/
inductive RwOutcome where
  | earlyFail : RwOutcome
  | delegated : Nat → RwOutcome
  deriving DecidableEq

/-- FileSystem::Write (filesys.cc 601-610), up to the delegated
of->Write(buf, len) call on the stored open file. -/
def FileSystem.writeFd (tbl : FdTable) (id : Int) : Option RwOutcome :=
  if id - 1 < 0 ∨ 20 ≤ id - 1 then none
  else
    match tbl.getD (id - 1).toNat none with
    | none => some RwOutcome.earlyFail
    | some f => some (RwOutcome.delegated f)

/-- FileSystem::Read (filesys.cc 612-621), same shape as Write. -/
def FileSystem.readFd (tbl : FdTable) (id : Int) : Option RwOutcome :=
  if id - 1 < 0 ∨ 20 ≤ id - 1 then none
  else
    match tbl.getD (id - 1).toNat none with
    | none => some RwOutcome.earlyFail
    | some f => some (RwOutcome.delegated f)

/-! ## Spec-side comparison definition for Directory::Add -/

/-- Follows the words of claim C7 (spec-side definition, to be compared with
`Directory.add`): fail without mutating when an in-use entry with the name
exists, or when every entry is in use; otherwise mark the lowest-indexed
free slot in use with the given name, sector and type. -/
def Directory.addSpec (tbl : DirTable) (name : FName) (newSector : Int) (t : FType) :
    Bool × DirTable :=
  if tbl.any (fun e => e.inUse && nameEq e.name name) then (false, tbl)
  else if tbl.all (fun e => e.inUse) then (false, tbl)
  else
    match (List.range tbl.length).find? (fun i => !(tbl.getD i default).inUse) with
    | some i => (true, tbl.set i ⟨true, name, newSector, t⟩)
    | none => (false, tbl)

/-! ## Result projections used to state the claim theorems -/

/-- Success flag and final NumClear of an Allocate result. -/
def allocView (r : Bool × FileHeader × Bitmap × Disk × List WEvent) : Bool × Nat :=
  (r.1, r.2.2.1.numClear)

/-- Success flag of a Create result. -/
def crFlag (r : Bool × FsState × List WEvent) : Bool := r.1

/-- The write events of a Create result, restricted to the writes of the
three persistent structures (header, directory table, bitmap). -/
def crStructEvents (r : Bool × FsState × List WEvent) : List WEvent :=
  r.2.2.filter isStructEv

/-- Success flag of a removeRec result. -/
def rmFlag (r : Bool × FsState × List WEvent) : Bool := r.1

/-- Whether the table stored for directory-file sector k still has an
in-use entry whose name matches nm, in a removeRec result. -/
def rmHasName (k : Int) (nm : FName) (r : Bool × FsState × List WEvent) : Bool :=
  (r.2.1.dirStore k).any (fun e => e.inUse && nameEq e.name nm)

/-- The root table of a removeRec result. -/
def rmRootTbl (r : Bool × FsState × List WEvent) : DirTable :=
  r.2.1.dirStore DirectorySector

/-- The persisted bitmap bit for sector s of a removeRec result (true when
the sector is still marked used; out-of-range defaults to true). -/
def rmBitAt (s : Int) (r : Bool × FsState × List WEvent) : Bool :=
  r.2.1.bitmapDisk.getD s.toNat true

/-- Outcome tag of a CreateDirectory result. -/
def cdTag (r : CdResult × FsState × List WEvent) : CdResult := r.1

/-- Directory store of a CreateDirectory result. -/
def cdStore (r : CdResult × FsState × List WEvent) : DirStore := r.2.1.dirStore

/-- Persisted bitmap content of a CreateDirectory result. -/
def cdBits (r : CdResult × FsState × List WEvent) : List Bool := r.2.1.bitmapDisk

/-- Whether every write event of a CreateDirectory result is an index-block
write. -/
def cdOnlyIndexWrites (r : CdResult × FsState × List WEvent) : Bool :=
  r.2.2.all isIndexEv

/-- Outcome tag of a CreateDirectory result together with whether the run
performed no disk write at all. -/
def cdTagNoWrites (r : CdResult × FsState × List WEvent) : CdResult × Bool :=
  (r.1, r.2.2.isEmpty)

/-- The facts claim C9 is about, projected from a CreateDirectory result:
the resolved parent's table is unchanged, the persisted bitmap lost clear
sectors, and the bitmap was written back. -/
def cdLeakView (st : FsState) (psec : Int) (r : CdResult × FsState × List WEvent) : Bool :=
  decide (r.2.1.dirStore psec = st.dirStore psec) &&
  decide (Bitmap.numClear ⟨r.2.1.bitmapDisk⟩ < Bitmap.numClear ⟨st.bitmapDisk⟩) &&
  r.2.2.contains WEvent.bitmap

/-- Number of in-use entries of a table whose name matches nm. -/
def countName (tbl : DirTable) (nm : FName) : Nat :=
  tbl.countP (fun e => e.inUse && nameEq e.name nm)

/-- Success flag of a removeRec result paired with whether the table of
directory-file sector k still holds an in-use entry named nm. -/
def rmCxView (k : Int) (nm : FName) (r : Bool × FsState × List WEvent) : Bool × Bool :=
  (r.1, rmHasName k nm r)

/-! ## Concrete inputs used by the counterexamples and witnesses -/

/-- A bitmap with exactly 33 clear sectors (7 set), for claim C2. -/
def c2Bitmap : Bitmap := ⟨List.replicate 7 true ++ List.replicate 33 false⟩

/-- A 40-sector device holding no relevant data, for claim C2. -/
def c2Disk : Disk := ⟨40, fun _ => SectorData.raw⟩

/-- Aggregate of one Allocate-then-Deallocate run: the resulting NumClear
when both complete with Allocate reporting success, none otherwise. -/
def roundtripClear (bits : List Bool) (dsk : Disk) (sz : Nat) : Option Nat :=
  match FileHeader.Allocate ⟨bits⟩ dsk sz with
  | some (true, hdr, bm1, dsk1, _) => (FileHeader.Deallocate hdr bm1 dsk1).map Bitmap.numClear
  | _ => none

/-- An amply-free bitmap content (62 of 64 sectors clear), for claim C2's
non-exhausting sizes. -/
def c2AmpleBits : List Bool := List.replicate 2 true ++ List.replicate 62 false

/-- A 64-sector device holding no relevant data. -/
def c2AmpleDisk : Disk := ⟨64, fun _ => SectorData.raw⟩

/-- A bitmap with a single clear sector, for claim C8's counterexample. -/
def oneClearBitmap : Bitmap := ⟨[false]⟩

/-- A one-sector device, for claim C8's counterexample. -/
def oneSectorDisk : Disk := ⟨1, fun _ => SectorData.raw⟩

/-- Directory store for claim C1's witness: the root table already holds a
file named f. -/
def c1Store : DirStore := fun s =>
  if s = DirectorySector then [⟨true, "f".toList, 6, FType.file⟩] else []

/-- Filesystem state for claim C1's witness. -/
def c1State : FsState := ⟨⟨8, fun _ => SectorData.raw⟩, c1Store, List.replicate 8 true⟩

/-- Directory store for claim C3's counterexample: the root holds directory
a (header sector 2), whose table holds directory b (header sector 4) with
an empty table. -/
def c3Store : DirStore := fun s =>
  if s = DirectorySector then [⟨true, "a".toList, 2, FType.dir⟩]
  else if s = 2 then [⟨true, "b".toList, 4, FType.dir⟩]
  else []

/-- Device for claim C3: b's header at sector 4 (one data sector), its index
block at sector 5 naming data sector 6. -/
def c3Disk : Disk :=
  ⟨16, fun s =>
    if s = 4 then SectorData.header ⟨128, 1, [5]⟩
    else if s = 5 then SectorData.index ((6 : Int) :: List.replicate 31 (-1))
    else SectorData.raw⟩

/-- Persisted bitmap for claim C3: sectors 0-6 used, the rest clear. -/
def c3Bits : List Bool := List.replicate 7 true ++ List.replicate 9 false

/-- Filesystem state for claim C3's counterexample (nested target /a/b). -/
def c3State : FsState := ⟨c3Disk, c3Store, c3Bits⟩

/-- The path /a/b of claim C3's counterexample. -/
def c3Path : FsPath := ["a".toList, "b".toList]

/-- Directory store for claim C3's witness: directory b sits directly in the
root. -/
def c3TopStore : DirStore := fun s =>
  if s = DirectorySector then [⟨true, "b".toList, 4, FType.dir⟩] else []

/-- Filesystem state for claim C3's witness (top-level target /b). -/
def c3TopState : FsState := ⟨c3Disk, c3TopStore, c3Bits⟩

/-- Directory store for claim C4: the root holds only directory a (an empty
directory at header sector 5); no segment named missing exists anywhere. -/
def c4Store : DirStore := fun s =>
  if s = DirectorySector then [⟨true, "a".toList, 5, FType.dir⟩] else []

/-- Filesystem state for claim C4 (14 of 16 sectors clear, so the eager
Allocate inside CreateDirectory proceeds and writes an index block). -/
def c4State : FsState := ⟨⟨16, fun _ => SectorData.raw⟩, c4Store, List.replicate 2 true ++ List.replicate 14 false⟩

/-- The path /a/missing/c whose intermediate segment does not resolve. -/
def c4Path : FsPath := ["a".toList, "missing".toList, "c".toList]

/-- Directory store for claim C5's witness: an otherwise empty root with a
free slot. -/
def c5Store : DirStore := fun s => if s = DirectorySector then [blankEntry] else []

/-- Filesystem state for claim C5's witness. -/
def c5State : FsState :=
  ⟨⟨8, fun _ => SectorData.raw⟩, c5Store, List.replicate 2 true ++ List.replicate 6 false⟩

/-- Index block used by claim C6's witness: slot i holds sector 100 + i. -/
def c6Slots : List Int := (List.range 32).map (fun i => (i : Int) + 100)

/-- File header for claim C6's witness: 64 data sectors, index blocks at
sectors 7 and 9. -/
def c6Header : FileHeader := ⟨8192, 64, [7, 9]⟩

/-- Device for claim C6's witness: the index block c6Slots at sector 9. -/
def c6Disk : Disk := ⟨16, fun s => if s = 9 then SectorData.index c6Slots else SectorData.raw⟩

/-- Directory table for claim C7's witness: slot 0 in use, the rest free. -/
def c7Table : DirTable := ⟨true, "x".toList, 3, FType.file⟩ :: List.replicate 63 blankEntry

/-- Directory store for claim C9's witness: the root already holds a
directory named d. -/
def c9Store : DirStore := fun s =>
  if s = DirectorySector then [⟨true, "d".toList, 5, FType.dir⟩] else []

/-- Filesystem state for claim C9's witness (30 of 32 sectors clear). -/
def c9State : FsState :=
  ⟨⟨32, fun _ => SectorData.raw⟩, c9Store, List.replicate 2 true ++ List.replicate 30 false⟩

/-- File-descriptor table for claim C10's witness: descriptor 1 open, the
rest NULL. -/
def c10Table : FdTable := some 41 :: List.replicate 19 none

/-! ## Basic lemmas about the bitmap operations -/

@[simp] lemma countClear_nil : countClear [] = 0 := rfl

@[simp] lemma countClear_cons_true (t : List Bool) :
    countClear (true :: t) = countClear t := rfl

@[simp] lemma countClear_cons_false (t : List Bool) :
    countClear (false :: t) = countClear t + 1 := rfl

lemma fasAux_none_count (l : List Bool) (h : fasAux l = none) : countClear l = 0 := by
  induction l with
  | nil => rfl
  | cons b t ih =>
    cases b with
    | true =>
      rw [show fasAux (true :: t) =
          (match fasAux t with
           | none => none
           | some (i, l) => some (i + 1, true :: l)) from rfl] at h
      cases hft : fasAux t with
      | none => simpa using ih hft
      | some p => rw [hft] at h; simp at h
    | false => simp [fasAux] at h

lemma fasAux_some_spec (l : List Bool) (i : Nat) (l' : List Bool)
    (h : fasAux l = some (i, l')) :
    i < l.length ∧ l'.length = l.length ∧ countClear l' + 1 = countClear l := by
  induction l generalizing i l' with
  | nil => simp [fasAux] at h
  | cons b t ih =>
    cases b with
    | false =>
      simp only [fasAux, Option.some.injEq, Prod.mk.injEq] at h
      obtain ⟨h1, h2⟩ := h
      subst h1; subst h2
      simp
    | true =>
      rw [show fasAux (true :: t) =
          (match fasAux t with
           | none => none
           | some (i, l) => some (i + 1, true :: l)) from rfl] at h
      cases hft : fasAux t with
      | none => rw [hft] at h; simp at h
      | some p =>
        obtain ⟨j, tl⟩ := p
        rw [hft] at h
        simp only [Option.some.injEq, Prod.mk.injEq] at h
        obtain ⟨h1, h2⟩ := h
        subst h1; subst h2
        obtain ⟨g1, g2, g3⟩ := ih j tl hft
        refine ⟨by simpa using g1, by simpa using g2, by simpa using g3⟩

lemma findAndSetI_length (bm : Bitmap) :
    (bm.findAndSetI).2.bits.length = bm.bits.length := by
  cases hf : fasAux bm.bits with
  | none => simp [Bitmap.findAndSetI, hf]
  | some p =>
    obtain ⟨j, l⟩ := p
    simpa [Bitmap.findAndSetI, hf] using (fasAux_some_spec bm.bits j l hf).2.1

lemma findAndSetI_numClear_le (bm : Bitmap) :
    (bm.findAndSetI).2.numClear ≤ bm.numClear := by
  cases hf : fasAux bm.bits with
  | none => simp [Bitmap.findAndSetI, hf]
  | some p =>
    obtain ⟨j, l⟩ := p
    have := (fasAux_some_spec bm.bits j l hf).2.2
    simp only [Bitmap.findAndSetI, hf, Bitmap.numClear]
    omega

lemma findAndSetI_pos (bm : Bitmap) (h : 0 < bm.numClear) :
    0 ≤ (bm.findAndSetI).1 ∧ (bm.findAndSetI).1 < (bm.bits.length : Int) ∧
    (bm.findAndSetI).2.numClear + 1 = bm.numClear := by
  cases hf : fasAux bm.bits with
  | none =>
    exact absurd (fasAux_none_count bm.bits hf) (by unfold Bitmap.numClear at h; omega)
  | some p =>
    obtain ⟨j, l⟩ := p
    obtain ⟨g1, g2, g3⟩ := fasAux_some_spec bm.bits j l hf
    simp only [Bitmap.findAndSetI, hf, Bitmap.numClear]
    refine ⟨by positivity, by exact_mod_cast g1, by simpa [Bitmap.numClear] using g3⟩

lemma findAndSetI_nonneg_spec (bm : Bitmap) (h : 0 ≤ (bm.findAndSetI).1) :
    (bm.findAndSetI).2.numClear + 1 = bm.numClear := by
  cases hf : fasAux bm.bits with
  | none => simp [Bitmap.findAndSetI, hf] at h
  | some p =>
    obtain ⟨j, l⟩ := p
    have := (fasAux_some_spec bm.bits j l hf).2.2
    simp only [Bitmap.findAndSetI, hf, Bitmap.numClear]
    simpa [Bitmap.numClear] using this

lemma fillSlots_length (k : Nat) (bm : Bitmap) :
    (fillSlots k bm).2.bits.length = bm.bits.length := by
  induction k generalizing bm with
  | zero => rfl
  | succ n ih =>
    simp only [fillSlots]
    rw [ih]
    exact findAndSetI_length bm

lemma fillSlots_numClear_le (k : Nat) (bm : Bitmap) :
    (fillSlots k bm).2.numClear ≤ bm.numClear := by
  induction k generalizing bm with
  | zero => exact le_rfl
  | succ n ih =>
    simp only [fillSlots]
    exact le_trans (ih _) (findAndSetI_numClear_le bm)

lemma fillSlots_spec (k : Nat) (bm : Bitmap) (h : k ≤ bm.numClear) :
    (fillSlots k bm).2.numClear + k = bm.numClear := by
  induction k generalizing bm with
  | zero => simp [fillSlots]
  | succ n ih =>
    simp only [fillSlots]
    have hpos : 0 < bm.numClear := by omega
    have hfs := (findAndSetI_pos bm hpos).2.2
    have hrec := ih (bm.findAndSetI).2 (by omega)
    omega

/-! ## Lemmas about the allocation loop -/

lemma allocLoop_succ (iters n : Nat) (bm : Bitmap) (dsk : Disk) :
    allocLoop (iters + 1) (n + 1) bm dsk =
      (match dsk.writeSector (bm.findAndSetI).1
          (SectorData.index ((fillSlots (min 32 (n + 1)) (bm.findAndSetI).2).1 ++
            List.replicate (32 - min 32 (n + 1)) (-1))) with
       | none => none
       | some dsk1 =>
         match allocLoop iters (n + 1 - min 32 (n + 1))
             (fillSlots (min 32 (n + 1)) (bm.findAndSetI).2).2 dsk1 with
         | none => none
         | some (rest, bm2, dsk2, evs) =>
           some ((bm.findAndSetI).1 :: rest, bm2, dsk2,
             WEvent.indexBlock (bm.findAndSetI).1 :: evs)) := rfl

lemma allocLoop_spec (iters : Nat) :
    ∀ (n : Nat) (bm : Bitmap) (dsk : Disk),
      divRoundUp n 32 = iters →
      n + iters ≤ bm.numClear →
      bm.bits.length ≤ dsk.numSectors →
      ∃ l1 bm' dsk' evs,
        allocLoop iters n bm dsk = some (l1, bm', dsk', evs) ∧
        bm'.numClear + (n + iters) = bm.numClear ∧
        bm'.bits.length = bm.bits.length ∧
        dsk'.numSectors = dsk.numSectors := by
  induction iters with
  | zero =>
    intro n bm dsk h0 h1 h2
    have hn : n = 0 := by simp [divRoundUp] at h0; omega
    subst hn
    exact ⟨[], bm, dsk, [], rfl, by omega, rfl, rfl⟩
  | succ it ih =>
    intro n bm dsk h0 h1 h2
    cases n with
    | zero => exact absurd h0 (by simp [divRoundUp])
    | succ m =>
      have hpos : 0 < bm.numClear := by omega
      obtain ⟨e1, e2, e3⟩ := findAndSetI_pos bm hpos
      have hkub : min 32 (m + 1) ≤ m + 1 := min_le_right _ _
      have hk1 : 1 ≤ min 32 (m + 1) := by omega
      have hfill : min 32 (m + 1) ≤ (bm.findAndSetI).2.numClear := by omega
      have hfs := fillSlots_spec (min 32 (m + 1)) (bm.findAndSetI).2 hfill
      have hfl := fillSlots_length (min 32 (m + 1)) (bm.findAndSetI).2
      have hpl := findAndSetI_length bm
      have hcond : 0 ≤ (bm.findAndSetI).1 ∧ (bm.findAndSetI).1 < (dsk.numSectors : Int) :=
        ⟨e1, lt_of_lt_of_le e2 (by exact_mod_cast h2)⟩
      rw [allocLoop_succ]
      rw [Disk.writeSector, if_pos hcond]
      have hdr : divRoundUp (m + 1 - min 32 (m + 1)) 32 = it := by
        simp only [divRoundUp] at h0 ⊢
        omega
      have hroom : (m + 1 - min 32 (m + 1)) + it ≤
          (fillSlots (min 32 (m + 1)) (bm.findAndSetI).2).2.numClear := by omega
      have hlen : (fillSlots (min 32 (m + 1)) (bm.findAndSetI).2).2.bits.length ≤
          (⟨dsk.numSectors, fun k =>
            if k = (bm.findAndSetI).1.toNat then
              SectorData.index ((fillSlots (min 32 (m + 1)) (bm.findAndSetI).2).1 ++
                List.replicate (32 - min 32 (m + 1)) (-1))
            else dsk.sectors k⟩ : Disk).numSectors := by
        simp only
        omega
      obtain ⟨l1, bm', dsk', evs, hrec, g1, g2, g3⟩ :=
        ih (m + 1 - min 32 (m + 1)) (fillSlots (min 32 (m + 1)) (bm.findAndSetI).2).2 _ hdr hroom hlen
      simp only []
      rw [hrec]
      refine ⟨_, bm', dsk', _, rfl, by omega, by omega, by simpa using g3⟩

lemma allocLoop_events (iters : Nat) :
    ∀ (n : Nat) (bm : Bitmap) (dsk : Disk) l1 bm' dsk' evs,
      allocLoop iters n bm dsk = some (l1, bm', dsk', evs) →
      evs.all isIndexEv = true := by
  induction iters with
  | zero =>
    intro n bm dsk l1 bm' dsk' evs h
    cases n with
    | zero =>
      simp only [allocLoop, Option.some.injEq, Prod.mk.injEq] at h
      rcases h with ⟨-, -, -, h4⟩
      subst h4; rfl
    | succ m => simp [allocLoop] at h
  | succ it ih =>
    intro n bm dsk l1 bm' dsk' evs h
    cases n with
    | zero =>
      simp only [allocLoop, Option.some.injEq, Prod.mk.injEq] at h
      rcases h with ⟨-, -, -, h4⟩
      subst h4; rfl
    | succ m =>
      rw [allocLoop_succ] at h
      cases hw : dsk.writeSector (bm.findAndSetI).1
          (SectorData.index ((fillSlots (min 32 (m + 1)) (bm.findAndSetI).2).1 ++
            List.replicate (32 - min 32 (m + 1)) (-1))) with
      | none => rw [hw] at h; simp at h
      | some dsk1 =>
        rw [hw] at h
        simp only [] at h
        cases hr : allocLoop it (m + 1 - min 32 (m + 1))
            (fillSlots (min 32 (m + 1)) (bm.findAndSetI).2).2 dsk1 with
        | none => rw [hr] at h; simp at h
        | some r =>
          obtain ⟨r1, r2, r3, r4⟩ := r
          rw [hr] at h
          simp only [Option.some.injEq, Prod.mk.injEq] at h
          rcases h with ⟨-, -, -, h4⟩
          subst h4
          have := ih _ _ _ _ _ _ _ hr
          simpa [isIndexEv] using this

lemma allocLoop_numClear_le (iters : Nat) :
    ∀ (n : Nat) (bm : Bitmap) (dsk : Disk) l1 bm' dsk' evs,
      allocLoop iters n bm dsk = some (l1, bm', dsk', evs) →
      bm'.numClear ≤ bm.numClear := by
  induction iters with
  | zero =>
    intro n bm dsk l1 bm' dsk' evs h
    cases n with
    | zero =>
      simp only [allocLoop, Option.some.injEq, Prod.mk.injEq] at h
      rcases h with ⟨-, h2, -, -⟩
      subst h2; exact le_rfl
    | succ m => simp [allocLoop] at h
  | succ it ih =>
    intro n bm dsk l1 bm' dsk' evs h
    cases n with
    | zero =>
      simp only [allocLoop, Option.some.injEq, Prod.mk.injEq] at h
      rcases h with ⟨-, h2, -, -⟩
      subst h2; exact le_rfl
    | succ m =>
      rw [allocLoop_succ] at h
      cases hw : dsk.writeSector (bm.findAndSetI).1
          (SectorData.index ((fillSlots (min 32 (m + 1)) (bm.findAndSetI).2).1 ++
            List.replicate (32 - min 32 (m + 1)) (-1))) with
      | none => rw [hw] at h; simp at h
      | some dsk1 =>
        rw [hw] at h
        simp only [] at h
        cases hr : allocLoop it (m + 1 - min 32 (m + 1))
            (fillSlots (min 32 (m + 1)) (bm.findAndSetI).2).2 dsk1 with
        | none => rw [hr] at h; simp at h
        | some r =>
          obtain ⟨r1, r2, r3, r4⟩ := r
          rw [hr] at h
          simp only [Option.some.injEq, Prod.mk.injEq] at h
          rcases h with ⟨-, h2, -, -⟩
          subst h2
          exact le_trans (le_trans (ih _ _ _ _ _ _ _ hr)
            (fillSlots_numClear_le _ _)) (findAndSetI_numClear_le bm)

lemma Allocate_events (bm : Bitmap) (dsk : Disk) (sz : Nat)
    (r : Bool × FileHeader × Bitmap × Disk × List WEvent)
    (h : FileHeader.Allocate bm dsk sz = some r) :
    r.2.2.2.2.all isIndexEv = true := by
  unfold FileHeader.Allocate at h
  by_cases hc : bm.numClear < divRoundUp sz SectorSize
  · rw [if_pos hc] at h
    simp only [Option.some.injEq] at h
    subst h; rfl
  · rw [if_neg hc] at h
    cases hr : allocLoop (divRoundUp (divRoundUp sz SectorSize) 32) (divRoundUp sz SectorSize) bm dsk with
    | none => rw [hr] at h; simp at h
    | some q =>
      obtain ⟨l1, bm1, dsk1, evs⟩ := q
      rw [hr] at h
      simp only [Option.some.injEq] at h
      subst h
      exact allocLoop_events _ _ _ _ _ _ _ _ hr

lemma Allocate_numClear_le (bm : Bitmap) (dsk : Disk) (sz : Nat)
    (r : Bool × FileHeader × Bitmap × Disk × List WEvent)
    (h : FileHeader.Allocate bm dsk sz = some r) :
    r.2.2.1.numClear ≤ bm.numClear := by
  unfold FileHeader.Allocate at h
  by_cases hc : bm.numClear < divRoundUp sz SectorSize
  · rw [if_pos hc] at h
    simp only [Option.some.injEq] at h
    subst h; exact le_rfl
  · rw [if_neg hc] at h
    cases hr : allocLoop (divRoundUp (divRoundUp sz SectorSize) 32) (divRoundUp sz SectorSize) bm dsk with
    | none => rw [hr] at h; simp at h
    | some q =>
      obtain ⟨l1, bm1, dsk1, evs⟩ := q
      rw [hr] at h
      simp only [Option.some.injEq] at h
      subst h
      exact allocLoop_numClear_le _ _ _ _ _ _ _ _ hr

lemma filter_struct_of_all_index (evs : List WEvent) (h : evs.all isIndexEv = true) :
    evs.filter isStructEv = [] := by
  induction evs with
  | nil => rfl
  | cons e t ih =>
    simp only [List.all_cons, Bool.and_eq_true] at h
    cases e with
    | indexBlock s => simpa [List.filter, isStructEv] using ih h.2
    | header s => simp [isIndexEv] at h
    | table s => simp [isIndexEv] at h
    | bitmap => simp [isIndexEv] at h

/-! ## Lemmas about the directory scans -/

lemma findIdxA_isSome_any {α : Type} (p : α → Bool) :
    ∀ l : List α, (findIdxA p l).isSome = l.any p := by
  intro l
  induction l with
  | nil => rfl
  | cons a t ih =>
    simp only [List.any_cons, ← ih]
    cases hp : p a with
    | true => simp [findIdxA, hp]
    | false =>
      simp only [findIdxA, hp, Bool.false_or, if_false]
      cases hf : findIdxA p t <;> simp [hf]

lemma findIdxA_none_all {α : Type} (p : α → Bool) :
    ∀ l : List α, findIdxA p l = none → l.all (fun x => !p x) = true := by
  intro l
  induction l with
  | nil => intro _; rfl
  | cons a t ih =>
    intro h
    cases hp : p a with
    | true => simp [findIdxA, hp] at h
    | false =>
      simp only [findIdxA, hp, if_false] at h
      cases hf : findIdxA p t with
      | none => simp [hp, ih hf]
      | some i => rw [hf] at h; simp at h

lemma findIdxA_some_not_all {α : Type} (p : α → Bool) :
    ∀ (l : List α) (i : Nat), findIdxA p l = some i → l.all (fun x => !p x) = false := by
  intro l
  induction l with
  | nil => intro i h; simp [findIdxA] at h
  | cons a t ih =>
    intro i h
    cases hp : p a with
    | true => simp [hp]
    | false =>
      simp only [findIdxA, hp, if_false] at h
      cases hf : findIdxA p t with
      | none => rw [hf] at h; simp at h
      | some j => simp [hp, ih j hf]

lemma findIdxA_eq_range_find {α : Type} (p : α → Bool) (d : α) :
    ∀ l : List α, findIdxA p l = (List.range l.length).find? (fun i => p (l.getD i d)) := by
  intro l
  induction l with
  | nil => rfl
  | cons a t ih =>
    rw [List.length_cons, List.range_succ_eq_map]
    cases hp : p a with
    | true =>
      rw [List.find?_cons_of_pos _ (by simpa using hp)]
      simp [findIdxA, hp]
    | false =>
      rw [List.find?_cons_of_neg _ (by simpa using hp), List.find?_map]
      have hcomp : ((fun i => p ((a :: t).getD i d)) ∘ (· + 1)) = fun i => p (t.getD i d) := rfl
      rw [hcomp, ← ih]
      simp only [findIdxA, hp, if_false]
      cases hf : findIdxA p t <;> simp [hf]

lemma add_of_dup (tbl : DirTable) (name : FName) (sec : Int) (t : FType)
    (h : (Directory.findIndex tbl name).isSome = true) :
    Directory.add tbl name sec t = (false, tbl) := by
  unfold Directory.add
  simp [h]

lemma countName_zero_noMatch (nm : FName) (tbl : DirTable) (h : countName tbl nm = 0) :
    tbl.any (fun e => e.inUse && nameEq e.name nm) = false := by
  unfold countName at h
  rw [List.countP_eq_zero] at h
  rw [List.any_eq_false]
  intro e he
  simpa using h e he

lemma removeName_clears (nm : FName) :
    ∀ tbl : DirTable, countName tbl nm ≤ 1 →
      (Directory.removeName tbl nm).2.any (fun e => e.inUse && nameEq e.name nm) = false := by
  intro tbl
  induction tbl with
  | nil => intro _; rfl
  | cons e t ih =>
    intro hc
    unfold Directory.removeName Directory.findIndex
    cases hp : (e.inUse && nameEq e.name nm) with
    | true =>
      simp only [findIdxA, hp, if_true]
      have hct : countName t nm = 0 := by
        unfold countName at hc ⊢
        rw [List.countP_cons_of_pos _ _ (by simpa using hp)] at hc
        omega
      simp only [List.set_cons_zero, List.any_cons, List.getD_cons_zero]
      simp [countName_zero_noMatch nm t hct]
    | false =>
      simp only [findIdxA, hp, if_false]
      have hct : countName t nm ≤ 1 := by
        unfold countName at hc ⊢
        rw [List.countP_cons_of_neg _ _ (by simp [hp])] at hc
        exact hc
      have := ih hct
      unfold Directory.removeName Directory.findIndex at this
      cases hf : findIdxA (fun e => e.inUse && nameEq e.name nm) t with
      | none =>
        rw [hf] at this
        simpa [hp] using this
      | some i =>
        rw [hf] at this
        simpa [hp, List.set_cons_succ, List.getD_cons_succ] using this

lemma getD_set_self : ∀ (l : List Bool) (i : Nat) (b : Bool), i < l.length →
    (l.set i b).getD i true = b := by
  intro l
  induction l with
  | nil => intro i b h; simp at h
  | cons a t ih =>
    intro i b h
    cases i with
    | zero => rfl
    | succ j =>
      rw [List.set_cons_succ, List.getD_cons_succ]
      exact ih j b (by simpa using h)

lemma clear_spec (bm : Bitmap) (s : Int) (bm' : Bitmap) (h : bm.clear s = some bm') :
    0 ≤ s ∧ bm'.bits.getD s.toNat true = false := by
  unfold Bitmap.clear Bitmap.test at h
  by_cases hc : 0 ≤ s ∧ s < (bm.bits.length : Int)
  · rw [if_pos hc] at h
    cases hgb : bm.bits.getD s.toNat false with
    | false => rw [hgb] at h; simp at h
    | true =>
      rw [hgb] at h
      simp only [Option.some.injEq] at h
      subst h
      have hlt : s.toNat < bm.bits.length := by omega
      exact ⟨hc.1, getD_set_self bm.bits s.toNat false hlt⟩
  · rw [if_neg hc] at h
    simp at h

lemma writeSector_nonneg (d : Disk) (s : Int) (v : SectorData) (d' : Disk)
    (h : d.writeSector s v = some d') : 0 ≤ s := by
  unfold Disk.writeSector at h
  by_cases hc : 0 ≤ s ∧ s < (d.numSectors : Int)
  · exact hc.1
  · rw [if_neg hc] at h; simp at h

/-! ## Claim theorems -/

/-- C2: for S in {0 bytes, 1 sector, exactly 32 sectors, 33 sectors} on an
amply-free bitmap, Allocate followed by Deallocate restores NumClear to its
pre-allocation value (62 here); but at the claimed "size exhausting all
remaining clear sectors" the pair cannot even complete: with exactly 33
clear sectors and S = 33 sectors, Allocate's precheck passes (it does not
count index-block sectors), FindAndSet runs dry, and the second index block
is written to sector -1, failing the device's range assertion -- so NumClear
is not restored by a completed run, contradicting the claim (and the code's
own documentation "Return FALSE if there are not enough free blocks"). -/
theorem allocate_deallocate_roundtrip_versus_exhaustion :
    roundtripClear c2AmpleBits c2AmpleDisk 0 = some 62 ∧
    roundtripClear c2AmpleBits c2AmpleDisk SectorSize = some 62 ∧
    roundtripClear c2AmpleBits c2AmpleDisk (32 * SectorSize) = some 62 ∧
    roundtripClear c2AmpleBits c2AmpleDisk (33 * SectorSize) = some 62 ∧
    c2Bitmap.numClear = 33 ∧
    FileHeader.Allocate c2Bitmap c2Disk (33 * SectorSize) = none :=
  ⟨by decide, by decide, by decide, by decide, by decide, rfl⟩

/-- C6: for any header and offset, when the device holds an index block at
the sector named by L1 entry (offset / SectorSize) / 32, ByteToSector
returns the value stored in slot (offset / SectorSize) % 32 of that index
block, and its read trace is exactly that one index-block read. -/
theorem byteToSector_two_step_one_read (h : FileHeader) (dsk : Disk) (offset : Nat)
    (slots : List Int)
    (hread : dsk.readSector (h.l1At (offset / SectorSize / 32)) =
      some (SectorData.index slots)) :
    FileHeader.ByteToSector h dsk offset =
      some (slots.getD (offset / SectorSize % 32) (-1),
        [h.l1At (offset / SectorSize / 32)]) := by
  unfold FileHeader.ByteToSector
  simp only []
  rw [hread]

/-- Witness for C6 at a concrete header and device: offset 5000 maps to
sector index 39, L1 entry 1 (= sector 9), slot 7, whose value is 107. -/
theorem byteToSector_two_step_witness :
    c6Disk.readSector (c6Header.l1At (5000 / SectorSize / 32)) =
      some (SectorData.index c6Slots) ∧
    FileHeader.ByteToSector c6Header c6Disk 5000 =
      some (c6Slots.getD (5000 / SectorSize % 32) (-1),
        [c6Header.l1At (5000 / SectorSize / 32)]) :=
  ⟨by decide, byteToSector_two_step_one_read c6Header c6Disk 5000 c6Slots (by decide)⟩

/-- C8 fails as stated: with a single clear sector and byteSize = 1 (so
n = 1 > 0), Allocate succeeds (its only check is NumClear < n) but consumes
just 1 sector, not n + ceil(n/32) = 2: the data-sector FindAndSet fails and
leaves the -1 sentinel in the index block. -/
theorem allocate_undercount_counterexample :
    (FileHeader.Allocate oneClearBitmap oneSectorDisk 1).map allocView = some (true, 0) ∧
    oneClearBitmap.numClear - 0 ≠
      divRoundUp 1 SectorSize + divRoundUp (divRoundUp 1 SectorSize) 32 :=
  ⟨by decide, by decide⟩

/-- C8 (amended): whenever the bitmap additionally has at least
n + ceil(n/32) clear sectors (so the index-block sectors the precheck does
not count are also available) and the bitmap covers no more sectors than
the device, Allocate succeeds and consumes exactly n + ceil(n/32) sectors:
n data sectors plus one sector per index block. -/
theorem allocate_consumes_data_plus_index_sectors (bm : Bitmap) (dsk : Disk) (fileSize : Nat)
    (hroom : divRoundUp fileSize SectorSize +
      divRoundUp (divRoundUp fileSize SectorSize) 32 ≤ bm.numClear)
    (hfits : bm.bits.length ≤ dsk.numSectors) :
    (FileHeader.Allocate bm dsk fileSize).map allocView =
      some (true, bm.numClear - (divRoundUp fileSize SectorSize +
        divRoundUp (divRoundUp fileSize SectorSize) 32)) := by
  unfold FileHeader.Allocate
  have hc : ¬ bm.numClear < divRoundUp fileSize SectorSize := by omega
  rw [if_neg hc]
  obtain ⟨l1, bm', dsk', evs, hrec, g1, g2, g3⟩ :=
    allocLoop_spec (divRoundUp (divRoundUp fileSize SectorSize) 32)
      (divRoundUp fileSize SectorSize) bm dsk rfl hroom hfits
  rw [hrec]
  simp only [Option.map_some', allocView, Option.some.injEq, Prod.mk.injEq]
  exact ⟨trivial, by omega⟩

/-- Witness for C8's amended theorem: 40 clear sectors, a 33-sector file
(n = 33, two index blocks): exactly 35 sectors are consumed. -/
theorem allocate_consumes_witness :
    divRoundUp 4224 SectorSize + divRoundUp (divRoundUp 4224 SectorSize) 32 ≤
      Bitmap.numClear ⟨List.replicate 40 false⟩ ∧
    (⟨List.replicate 40 false⟩ : Bitmap).bits.length ≤
      (⟨40, fun _ => SectorData.raw⟩ : Disk).numSectors ∧
    (FileHeader.Allocate ⟨List.replicate 40 false⟩ ⟨40, fun _ => SectorData.raw⟩ 4224).map
        allocView =
      some (true, Bitmap.numClear ⟨List.replicate 40 false⟩ -
        (divRoundUp 4224 SectorSize + divRoundUp (divRoundUp 4224 SectorSize) 32)) :=
  ⟨by decide, by decide,
    allocate_consumes_data_plus_index_sectors ⟨List.replicate 40 false⟩
      ⟨40, fun _ => SectorData.raw⟩ 4224 (by decide) (by decide)⟩

/-- C10: for any descriptor id in 1..20 whose slot holds an open file,
Close returns 1 but leaves the slot untouched (the statement
`fileDescriptorTable[id-1]==NULL;` is a comparison, not an assignment), so
a subsequent Write or Read with the same id is delegated to the open file
instead of failing with -1. -/
theorem close_leaves_descriptor_open (tbl : FdTable) (id : Int) (f : Nat)
    (h1 : 1 ≤ id) (h2 : id ≤ 20) (hslot : tbl.getD (id - 1).toNat none = some f) :
    FileSystem.closeFd tbl id = some (1, tbl) ∧
    FileSystem.writeFd tbl id = some (RwOutcome.delegated f) ∧
    FileSystem.readFd tbl id = some (RwOutcome.delegated f) := by
  have hb : ¬(id - 1 < 0 ∨ 20 ≤ id - 1) := by omega
  unfold FileSystem.closeFd FileSystem.writeFd FileSystem.readFd
  rw [if_neg hb, hslot]
  simp
  omega

/-- Witness for C10 at descriptor 1 of a table whose slot 0 holds an open
file. -/
theorem close_leaves_descriptor_open_witness :
    (1 : Int) ≤ 1 ∧ (1 : Int) ≤ 20 ∧
    c10Table.getD ((1 : Int) - 1).toNat none = some 41 ∧
    (FileSystem.closeFd c10Table 1 = some (1, c10Table) ∧
      FileSystem.writeFd c10Table 1 = some (RwOutcome.delegated 41) ∧
      FileSystem.readFd c10Table 1 = some (RwOutcome.delegated 41)) :=
  ⟨by decide, by decide, by decide,
    close_leaves_descriptor_open c10Table 1 41 (by decide) (by decide) (by decide)⟩

/-- Specialization of findIdxA_eq_range_find to the free-slot scan. -/
lemma findIdxA_notInUse_eq_range (tbl : DirTable) :
    findIdxA (fun e => !e.inUse) tbl =
      (List.range tbl.length).find? (fun i => !(tbl.getD i default).inUse) :=
  findIdxA_eq_range_find _ default tbl

/-- C1: whenever the parent directory resolves and the final name is
already present in the resolved parent table, Create fails and returns the
filesystem state unchanged with an empty write trace: neither the on-disk
bitmap nor any on-disk directory table is written back, so both are
byte-for-byte unchanged. -/
theorem create_duplicate_name_rejected (fuel : Nat) (st : FsState) (path : FsPath)
    (size : Nat) (psec : Int)
    (hres : FileSystem.resolveParent fuel st path = some psec)
    (hdup : Directory.findNR (st.dirStore psec) (finalName path) ≠ -1) :
    FileSystem.create fuel st path size = some (false, st, []) := by
  unfold FileSystem.create
  cases hc : checkFileLength path with
  | false => simp [hc]
  | true =>
    simp only [hc, Bool.not_true, Bool.false_eq_true, if_false]
    rw [hres]
    simp only []
    rw [if_pos (by simpa [bne_iff_ne] using hdup)]

/-- Witness for C1: the root table already holds a file f; creating /f
fails with no state change and no writes. -/
theorem create_duplicate_name_witness :
    FileSystem.resolveParent 3 c1State ["f".toList] = some 1 ∧
    Directory.findNR (c1State.dirStore 1) (finalName ["f".toList]) ≠ -1 ∧
    FileSystem.create 3 c1State ["f".toList] 100 = some (false, c1State, []) :=
  ⟨by decide, by decide,
    create_duplicate_name_rejected 3 c1State ["f".toList] 100 1 (by decide) (by decide)⟩

/-- C7: on a 64-entry table, with a name within the 9-character bound,
Directory::Add behaves exactly as the claim states (the spec-side
addSpec): false without mutation when an in-use entry with the name exists
or all entries are in use; otherwise the lowest-indexed free slot is
claimed with the given name, sector and type. -/
theorem directory_add_matches_spec (tbl : DirTable) (name : FName) (sec : Int) (t : FType)
    (_hlen : tbl.length = 64) (hname : name.length ≤ FileNameMaxLen) :
    Directory.add tbl name sec t = Directory.addSpec tbl name sec t := by
  unfold Directory.add Directory.addSpec Directory.findIndex
  rw [List.take_of_length_le hname]
  rw [findIdxA_isSome_any]
  cases hany : tbl.any (fun e => e.inUse && nameEq e.name name) with
  | true => simp [hany]
  | false =>
    simp only [hany, Bool.false_eq_true, if_false]
    cases hq : findIdxA (fun e => !e.inUse) tbl with
    | none =>
      have hall := findIdxA_none_all (fun e => !e.inUse) tbl hq
      simp only [Bool.not_not] at hall
      rw [hall]
      simp
    | some i =>
      have hnall := findIdxA_some_not_all (fun e => !e.inUse) tbl i hq
      simp only [Bool.not_not] at hnall
      rw [hnall]
      simp only [Bool.false_eq_true, if_false]
      rw [← findIdxA_notInUse_eq_range, hq]

/-- Witness for C7: adding a fresh name y to a 64-entry table whose slot 0
is occupied agrees with the spec-side description (slot 1 is claimed). -/
theorem directory_add_matches_spec_witness :
    c7Table.length = 64 ∧ ("y".toList : FName).length ≤ FileNameMaxLen ∧
    Directory.add c7Table "y".toList 9 FType.file =
      Directory.addSpec c7Table "y".toList 9 FType.file :=
  ⟨by decide, by decide,
    directory_add_matches_spec c7Table "y".toList 9 FType.file (by decide) (by decide)⟩

/-- C5: on every successful Create, the writes of the three persistent
structures occur in the order: the new file header first (at the sector
FindAndSet returned), then the parent directory table (at the resolved
parent sector), then the bitmap -- the only other writes in the trace are
the index blocks written from inside Allocate, which are not one of the
three structures. -/
theorem create_success_write_order (fuel : Nat) (st : FsState) (path : FsPath) (size : Nat)
    (hsucc : (FileSystem.create fuel st path size).map crFlag = some true) :
    (FileSystem.create fuel st path size).map crStructEvents =
      some [WEvent.header (Bitmap.findAndSetI ⟨st.bitmapDisk⟩).1,
            WEvent.table ((FileSystem.resolveParent fuel st path).getD (-1)),
            WEvent.bitmap] := by
  unfold FileSystem.create at hsucc ⊢
  cases hc : checkFileLength path with
  | false => simp [hc, crFlag] at hsucc
  | true =>
    simp only [hc, Bool.not_true, Bool.false_eq_true, if_false] at hsucc ⊢
    cases hrp : FileSystem.resolveParent fuel st path with
    | none => simp [hrp, crFlag] at hsucc
    | some psec =>
      simp only [hrp] at hsucc ⊢
      cases hdup : (Directory.findNR (st.dirStore psec) (finalName path) != -1) with
      | true => simp [hdup, crFlag] at hsucc
      | false =>
        simp only [hdup, Bool.false_eq_true, if_false] at hsucc ⊢
        cases hp1 : ((Bitmap.findAndSetI ⟨st.bitmapDisk⟩).1 == -1) with
        | true => simp [hp1, crFlag] at hsucc
        | false =>
          simp only [hp1, Bool.false_eq_true, if_false] at hsucc ⊢
          cases ha : (Directory.add (st.dirStore psec) (finalName path)
              (Bitmap.findAndSetI ⟨st.bitmapDisk⟩).1 FType.file).1 with
          | false => simp [ha, crFlag] at hsucc
          | true =>
            simp only [ha, Bool.not_true, Bool.false_eq_true, if_false] at hsucc ⊢
            cases halloc : FileHeader.Allocate
                (Bitmap.findAndSetI ⟨st.bitmapDisk⟩).2 st.disk size with
            | none => simp [halloc] at hsucc
            | some q =>
              obtain ⟨flag, hdr, bm2, dsk1, evs⟩ := q
              cases flag with
              | false => simp [halloc, crFlag] at hsucc
              | true =>
                simp only [halloc] at hsucc ⊢
                cases hw : dsk1.writeSector (Bitmap.findAndSetI ⟨st.bitmapDisk⟩).1
                    (SectorData.header hdr) with
                | none => simp [hw] at hsucc
                | some dsk2 =>
                  simp only [Option.map_some', crStructEvents, Option.some.injEq]
                  rw [List.filter_append,
                    filter_struct_of_all_index evs (Allocate_events _ _ _ _ halloc)]
                  simp [isStructEv]

/-- Witness for C5: a concrete successful Create of /f (size 1) writes, in
order, index block(s), then the header, the root table and the bitmap. -/
theorem create_success_write_order_witness :
    (FileSystem.create 4 c5State ["f".toList] 1).map crFlag = some true ∧
    (FileSystem.create 4 c5State ["f".toList] 1).map crStructEvents =
      some [WEvent.header (Bitmap.findAndSetI ⟨c5State.bitmapDisk⟩).1,
            WEvent.table ((FileSystem.resolveParent 4 c5State ["f".toList]).getD (-1)),
            WEvent.bitmap] :=
  ⟨by decide, create_success_write_order 4 c5State ["f".toList] 1 (by decide)⟩

/-- C4 fails as stated: for the path /a/missing/c over a state in which
directory a exists but no segment missing does, CreateDirectory does
report the invalid path, yet a disk write has already been performed: the
eager hdr->Allocate call wrote an index block before the path check, so
the write-event list is not empty. -/
theorem missing_parent_createDirectory_still_writes :
    (FileSystem.createDirectory 4 c4State c4Path).map cdTagNoWrites =
      some (CdResult.invalidPath, false) := by decide

/-- C4 (amended): when the intermediate (parent) segment does not resolve,
Create fails with the not-found result and performs no disk write of any
kind (state returned untouched, empty trace); CreateDirectory reports the
explicit invalid-path condition and writes back none of the header, the
directory tables or the bitmap -- but the index blocks eagerly allocated
for the prospective directory header are already written to disk before
the path check (every event of its trace is an index-block write). -/
theorem missing_parent_no_commit (fuel : Nat) (st : FsState) (path : FsPath) (d : FName)
    (size : Nat)
    (hseg : parentSeg path = some d)
    (hfind : Directory.find st.dirStore fuel (st.dirStore DirectorySector) d true = -1)
    (hlen : checkFileLength path = true)
    (hcomp : (FileSystem.createDirectory fuel st path).isSome = true) :
    FileSystem.create fuel st path size = some (false, st, []) ∧
    (FileSystem.createDirectory fuel st path).map cdTag = some CdResult.invalidPath ∧
    (FileSystem.createDirectory fuel st path).map cdStore = some st.dirStore ∧
    (FileSystem.createDirectory fuel st path).map cdBits = some st.bitmapDisk ∧
    (FileSystem.createDirectory fuel st path).map cdOnlyIndexWrites = some true := by
  have hrpn : FileSystem.resolveParent fuel st path = none := by
    unfold FileSystem.resolveParent
    rw [hseg]
    simp [hfind]
  cases halloc : FileHeader.Allocate ⟨st.bitmapDisk⟩ st.disk DirectoryFileSize with
  | none =>
    exfalso
    unfold FileSystem.createDirectory at hcomp
    rw [hlen] at hcomp
    simp only [Bool.not_true, Bool.false_eq_true, if_false] at hcomp
    rw [halloc] at hcomp
    simp at hcomp
  | some q =>
    obtain ⟨flag, hdr, bm1, dsk1, evs1⟩ := q
    have hcd : FileSystem.createDirectory fuel st path =
        some (CdResult.invalidPath, ⟨dsk1, st.dirStore, st.bitmapDisk⟩, evs1) := by
      unfold FileSystem.createDirectory
      rw [hlen]
      simp only [Bool.not_true, Bool.false_eq_true, if_false]
      rw [halloc]
      simp only []
      rw [hseg]
      simp only []
      rw [if_pos (by simp [hfind])]
    refine ⟨?_, ?_, ?_, ?_, ?_⟩
    · unfold FileSystem.create
      rw [hlen]
      simp only [Bool.not_true, Bool.false_eq_true, if_false]
      rw [hrpn]
    · rw [hcd]; rfl
    · rw [hcd]; rfl
    · rw [hcd]; rfl
    · rw [hcd]
      simp only [Option.map_some', cdOnlyIndexWrites, Option.some.injEq]
      exact Allocate_events _ _ _ _ halloc

/-- Witness for C4's amended theorem on the concrete /a/missing/c state:
Create performs no write, CreateDirectory reports invalid path, leaves the
directory store and bitmap file untouched, and its only writes are index
blocks. -/
theorem missing_parent_no_commit_witness :
    parentSeg c4Path = some "missing".toList ∧
    Directory.find c4State.dirStore 4 (c4State.dirStore DirectorySector)
      "missing".toList true = -1 ∧
    checkFileLength c4Path = true ∧
    (FileSystem.createDirectory 4 c4State c4Path).isSome = true ∧
    (FileSystem.create 4 c4State c4Path 100 = some (false, c4State, []) ∧
      (FileSystem.createDirectory 4 c4State c4Path).map cdTag = some CdResult.invalidPath ∧
      (FileSystem.createDirectory 4 c4State c4Path).map cdStore = some c4State.dirStore ∧
      (FileSystem.createDirectory 4 c4State c4Path).map cdBits = some c4State.bitmapDisk ∧
      (FileSystem.createDirectory 4 c4State c4Path).map cdOnlyIndexWrites = some true) :=
  ⟨by decide, by decide, by decide, by decide,
    missing_parent_no_commit 4 c4State c4Path "missing".toList 100
      (by decide) (by decide) (by decide) (by decide)⟩

/-- C3 fails as stated: for the nested directory target /a/b (b inside a),
recursive Remove reports success -- it drains b, deallocates b's header
sector and removes "b" from the ROOT table (a no-op there) -- yet the
parent directory a's on-disk table still contains the in-use entry "b",
now pointing at a deallocated header sector. -/
theorem remove_recursive_nested_keeps_parent_entry :
    (FileSystem.removeRec 8 c3State c3Path).map (rmCxView 2 "b".toList) =
      some (true, true) := by decide

/-- C3 (amended): recursive Remove of a directory target takes the entry
out of the ROOT table, not the parent's, so the claimed postcondition
holds exactly when the parent is the root: for a top-level target, any
successful run leaves the root table equal to Directory::Remove of the old
root (hence with no in-use entry of that name when the root held at most
one), and the target's header sector cleared in the persisted bitmap. -/
theorem remove_recursive_toplevel_removes_from_root (fuel : Nat) (st : FsState)
    (path : FsPath) (nm : FName)
    (hfn : finalName path = nm) (hps : parentSeg path = none)
    (hdup : countName (st.dirStore DirectorySector) nm ≤ 1)
    (hsucc : (FileSystem.removeRec fuel st path).map rmFlag = some true) :
    (FileSystem.removeRec fuel st path).map (rmHasName DirectorySector nm) = some false ∧
    (FileSystem.removeRec fuel st path).map rmRootTbl =
      some (Directory.removeName (st.dirStore DirectorySector) nm).2 ∧
    (FileSystem.removeRec fuel st path).map
        (rmBitAt (Directory.find st.dirStore fuel (st.dirStore DirectorySector) nm true)) =
      some false := by
  unfold FileSystem.removeRec at hsucc ⊢
  rw [hfn, hps] at hsucc ⊢
  cases hsb : (Directory.find st.dirStore fuel (st.dirStore DirectorySector) nm true == -1) with
  | true => simp [hsb, rmFlag] at hsucc
  | false =>
    simp only [hsb, Bool.false_eq_true, if_false] at hsucc ⊢
    cases hra : Directory.removeAll st.disk fuel st.dirStore ⟨st.bitmapDisk⟩
        (st.dirStore (Directory.find st.dirStore fuel (st.dirStore DirectorySector) nm true))
        (Directory.find st.dirStore fuel (st.dirStore DirectorySector) nm true) with
    | none => simp [hra] at hsucc
    | some tr =>
      obtain ⟨store1, bm1, evs1⟩ := tr
      simp only [hra] at hsucc ⊢
      cases hrd : st.disk.readSector
          (Directory.find st.dirStore fuel (st.dirStore DirectorySector) nm true) with
      | none => simp [hrd] at hsucc
      | some sd =>
        cases sd with
        | raw => simp [hrd] at hsucc
        | index sl => simp [hrd] at hsucc
        | header hh =>
          simp only [hrd] at hsucc ⊢
          cases hde : FileHeader.Deallocate hh bm1 st.disk with
          | none => simp [hde] at hsucc
          | some bm2 =>
            simp only [hde] at hsucc ⊢
            cases hcl : bm2.clear
                (Directory.find st.dirStore fuel (st.dirStore DirectorySector) nm true) with
            | none => simp [hcl] at hsucc
            | some bm3 =>
              simp only [hcl, Option.map_some', Option.some.injEq]
              refine ⟨?_, ?_, ?_⟩
              · simp only [rmHasName, updStore, if_pos rfl]
                exact removeName_clears nm (st.dirStore DirectorySector) hdup
              · simp [rmRootTbl, updStore]
              · simp only [rmBitAt]
                exact (clear_spec bm2 _ bm3 hcl).2

/-- Witness for C3's amended theorem: removing the top-level directory /b
succeeds, the root no longer holds an in-use "b", the root equals
Directory::Remove of the old root, and b's header sector bit is cleared. -/
theorem remove_recursive_toplevel_witness :
    finalName ["b".toList] = "b".toList ∧
    parentSeg ["b".toList] = none ∧
    countName (c3TopState.dirStore DirectorySector) "b".toList ≤ 1 ∧
    (FileSystem.removeRec 8 c3TopState ["b".toList]).map rmFlag = some true ∧
    ((FileSystem.removeRec 8 c3TopState ["b".toList]).map
        (rmHasName DirectorySector "b".toList) = some false ∧
      (FileSystem.removeRec 8 c3TopState ["b".toList]).map rmRootTbl =
        some (Directory.removeName (c3TopState.dirStore DirectorySector) "b".toList).2 ∧
      (FileSystem.removeRec 8 c3TopState ["b".toList]).map
          (rmBitAt (Directory.find c3TopState.dirStore 8
            (c3TopState.dirStore DirectorySector) "b".toList true)) = some false) :=
  ⟨by decide, by decide, by decide, by decide,
    remove_recursive_toplevel_removes_from_root 8 c3TopState ["b".toList] "b".toList
      (by decide) (by decide) (by decide) (by decide)⟩

/-- Shared step for C9: whatever state the CreateDirectory tail is entered
with, if the final name is already present in the parent table at psec,
the duplicate Add is rejected so the stored parent table is unchanged, the
persisted bitmap is the header FindAndSet result (one more sector gone),
and the bitmap write-back event is in the trace. -/
lemma cdFinish_dup (st' : FsState) (hdr : FileHeader) (bm1 : Bitmap) (dsk1 : Disk)
    (evs1 : List WEvent) (nm : FName) (psec : Int)
    (hdup : (Directory.findIndex (st'.dirStore psec) nm).isSome = true)
    (r : CdResult × FsState × List WEvent)
    (hr : FileSystem.cdFinish st' hdr bm1 dsk1 evs1 nm psec = some r) :
    r.2.1.dirStore psec = st'.dirStore psec ∧
    Bitmap.numClear ⟨r.2.1.bitmapDisk⟩ + 1 = bm1.numClear ∧
    r.2.2.contains WEvent.bitmap = true := by
  unfold FileSystem.cdFinish at hr
  cases hw : dsk1.writeSector (bm1.findAndSetI).1 (SectorData.header hdr) with
  | none => simp [hw] at hr
  | some dsk2 =>
    simp only [hw, Option.some.injEq] at hr
    subst hr
    refine ⟨?_, ?_, by simp⟩
    · simp [updStore, add_of_dup _ _ _ _ hdup]
    · have hge := writeSector_nonneg dsk1 _ _ _ hw
      have := findAndSetI_nonneg_spec bm1 hge
      simpa [Bitmap.numClear] using this

/-- C9: for every CreateDirectory call (that runs to completion) whose
final name already exists in the resolved parent directory, the parent
table is left with its entries unchanged (the duplicate Add is rejected),
yet the persisted bitmap -- which the eager Allocate and the header
FindAndSet already charged for the new header, content and index-block
sectors -- is still written back with strictly fewer clear sectors, so the
newly marked sectors are referenced by no directory entry. -/
theorem createDirectory_duplicate_name_leaks (fuel : Nat) (st : FsState) (path : FsPath)
    (psec : Int)
    (hres : FileSystem.resolveParent fuel st path = some psec)
    (hdup : (Directory.findIndex (st.dirStore psec) (finalName path)).isSome = true)
    (hlen : checkFileLength path = true)
    (hcomp : (FileSystem.createDirectory fuel st path).isSome = true) :
    (FileSystem.createDirectory fuel st path).map (cdLeakView st psec) = some true := by
  unfold FileSystem.createDirectory at hcomp ⊢
  simp only [hlen, Bool.not_true, Bool.false_eq_true, if_false] at hcomp ⊢
  cases halloc : FileHeader.Allocate ⟨st.bitmapDisk⟩ st.disk DirectoryFileSize with
  | none => simp [halloc] at hcomp
  | some q =>
    obtain ⟨flag, hdr, bm1, dsk1, evs1⟩ := q
    simp only [halloc] at hcomp ⊢
    have hble : bm1.numClear ≤ Bitmap.numClear ⟨st.bitmapDisk⟩ :=
      Allocate_numClear_le _ _ _ _ halloc
    unfold FileSystem.resolveParent at hres
    cases hseg : parentSeg path with
    | none =>
      simp only [hseg, Option.some.injEq] at hres hcomp ⊢
      subst hres
      cases hcf : FileSystem.cdFinish ⟨dsk1, st.dirStore, st.bitmapDisk⟩ hdr bm1 dsk1 evs1
          (finalName path) DirectorySector with
      | none => simp [hcf] at hcomp
      | some r =>
        simp only [hcf, Option.map_some', Option.some.injEq]
        obtain ⟨g1, g2, g3⟩ := cdFinish_dup _ hdr bm1 dsk1 evs1 _ _ hdup r hcf
        simp only [cdLeakView, Bool.and_eq_true, decide_eq_true_eq]
        exact ⟨⟨g1, by omega⟩, g3⟩
    | some d =>
      simp only [hseg] at hres hcomp ⊢
      cases hfb : (Directory.find st.dirStore fuel (st.dirStore DirectorySector) d true == -1) with
      | true => simp [hfb] at hres
      | false =>
        simp only [hfb, Bool.false_eq_true, if_false, Option.some.injEq] at hres hcomp ⊢
        subst hres
        cases hcf : FileSystem.cdFinish ⟨dsk1, st.dirStore, st.bitmapDisk⟩ hdr bm1 dsk1 evs1
            (finalName path)
            (Directory.find st.dirStore fuel (st.dirStore DirectorySector) d true) with
        | none => simp [hcf] at hcomp
        | some r =>
          simp only [hcf, Option.map_some', Option.some.injEq]
          obtain ⟨g1, g2, g3⟩ := cdFinish_dup _ hdr bm1 dsk1 evs1 _ _ hdup r hcf
          simp only [cdLeakView, Bool.and_eq_true, decide_eq_true_eq]
          exact ⟨⟨g1, by omega⟩, g3⟩

/-- Witness for C9: creating directory /d when the root already holds d:
the run completes, the root table is unchanged, the persisted bitmap lost
clear sectors, and the bitmap write-back is in the trace. -/
theorem createDirectory_duplicate_name_witness :
    FileSystem.resolveParent 4 c9State ["d".toList] = some DirectorySector ∧
    (Directory.findIndex (c9State.dirStore DirectorySector)
      (finalName ["d".toList])).isSome = true ∧
    checkFileLength ["d".toList] = true ∧
    (FileSystem.createDirectory 4 c9State ["d".toList]).isSome = true ∧
    (FileSystem.createDirectory 4 c9State ["d".toList]).map
      (cdLeakView c9State DirectorySector) = some true :=
  ⟨by decide, by decide, by decide, by decide,
    createDirectory_duplicate_name_leaks 4 c9State ["d".toList] DirectorySector
      (by decide) (by decide) (by decide) (by decide)⟩

end NachosFS
